import Mathlib

/-!
Verification development for the ficc-pricer repository.

Embedded sources:
* market-gateway/internal/models/contract.go — Currency, OptionType and the
  Contract variants (namespace Models);
* market-gateway/internal/market/manager.go — the market data Manager and its
  operations, once as a value-level model (namespace Market) and once with Go
  map reference semantics made explicit (namespace Ref), which is needed to
  reason about aliasing between a Manager and a MarketSnapshot;
* the valuation engine of the Haskell pricing service the gateway calls over
  gRPC; its code is not part of this repository checkout, so it is modelled
  from the specification (namespace Pricing), as flagged in the doc comments.

Idealisations: Go float64 values become exact rationals in the gateway model
and real numbers in the valuation model; time.Time instants become natural
numbers, with time.Now() turned into an explicit argument; calendar dates
become integer day numbers.
-/

/-- Association-list lookup: the value a Go map holds under a key, if any. -/
def alLookup {K V : Type} [DecidableEq K] : List (K × V) → K → Option V
  | [], _ => none
  | (k', v') :: t, k => if k' = k then some v' else alLookup t k

/-- Association-list store, modelling the Go map assignment m[k] = v. -/
def alInsert {K V : Type} [DecidableEq K] : List (K × V) → K → V → List (K × V)
  | [], k, v => [(k, v)]
  | (k', v') :: t, k, v => if k' = k then (k, v) :: t else (k', v') :: alInsert t k v

namespace Models

/-- Currency: the closed enumeration of currency codes in contract.go. -/
inductive Currency where
  | USD | EUR | GBP | JPY | CHF | AUD | CAD
deriving DecidableEq

/-- currencyNames: the name table of contract.go; the method Currency.String()
returns currencyNames[c]. -/
def currencyNames : Currency → String
  | .USD => "USD"
  | .EUR => "EUR"
  | .GBP => "GBP"
  | .JPY => "JPY"
  | .CHF => "CHF"
  | .AUD => "AUD"
  | .CAD => "CAD"

/-- The seven Currency values, in declaration order. -/
def allCurrencies : List Currency := [.USD, .EUR, .GBP, .JPY, .CHF, .AUD, .CAD]

/-- ParseCurrency scans the currencyNames table for an entry equal to s.  The
Go loop ranges over a map in unspecified order; the seven names are pairwise
distinct, so at most one entry matches and the iteration order cannot affect
the result. -/
def ParseCurrency (s : String) : Except String Currency :=
  match allCurrencies.find? (fun c => currencyNames c == s) with
  | some c => .ok c
  | none => .error ("unknown currency: " ++ s)

/-- OptionType from contract.go. -/
inductive OptionType where
  | Call | Put
deriving DecidableEq

/-- Contract: the concrete types implementing the Contract marker interface in
contract.go (Zero, Spot, Forward, EurOption, ZCB, Scale, Combine).  The file
defines no further implementations: in particular no When type and no
Observable type exist in the models package. -/
inductive Contract where
  | Zero
  | Spot (domestic foreign : Currency)
  | Forward (maturity : ℤ) (fixedRate : ℝ) (domestic foreign : Currency)
  | EurOption (optionType : OptionType) (strike : ℝ) (maturity : ℤ)
      (domestic foreign : Currency)
  | ZCB (currency : Currency) (maturity : ℤ)
  | Scale (notional : ℝ) (contract : Contract)
  | Combine (left right : Contract)

/-- The name of the concrete Go type behind a Contract interface value — the
variant tag a wire encoding would dispatch on. -/
def variantName : Contract → String
  | .Zero => "Zero"
  | .Spot _ _ => "Spot"
  | .Forward _ _ _ _ => "Forward"
  | .EurOption _ _ _ _ _ => "EurOption"
  | .ZCB _ _ => "ZCB"
  | .Scale _ _ => "Scale"
  | .Combine _ _ => "Combine"

end Models

namespace Market

/-- SpotRate record from manager.go. -/
structure SpotRate where
  Pair : String
  Rate : ℚ
  Timestamp : ℕ
deriving DecidableEq

/-- DiscountCurve record from manager.go (flat rate only, per the source). -/
structure DiscountCurve where
  Currency : String
  FlatRate : ℚ
  Compounding : String
  Timestamp : ℕ
deriving DecidableEq

/-- VolSurface record from manager.go (flat volatility only, per the source). -/
structure VolSurface where
  Pair : String
  FlatVol : ℚ
  Timestamp : ℕ
deriving DecidableEq

/-- MarketSnapshot from manager.go: a point-in-time view of the three maps. -/
structure MarketSnapshot where
  SpotRates : List (String × SpotRate)
  DiscountCurves : List (String × DiscountCurve)
  VolSurfaces : List (String × VolSurface)
  SnapshotTime : ℕ
deriving DecidableEq

/-- Manager state: the three maps guarded by the RWMutex in the source.  The
lock and the logger carry no data relevant to the verified properties. -/
structure Manager where
  spotRates : List (String × SpotRate)
  discountCurves : List (String × DiscountCurve)
  volSurfaces : List (String × VolSurface)
deriving DecidableEq

/-- NewManager: a fresh manager with three empty maps. -/
def NewManager : Manager := ⟨[], [], []⟩

/-- UpdateSpotRate: validates rate > 0, then stores the entry.  The result is
the manager state after the call paired with the returned error (none on
success); time.Now() is passed in as now. -/
def UpdateSpotRate (m : Manager) (pair : String) (rate : ℚ) (now : ℕ) :
    Manager × Option String :=
  if rate ≤ 0 then
    (m, some ("invalid rate " ++ toString rate ++ " for pair " ++ pair ++
      ": must be positive"))
  else
    ({ m with spotRates := alInsert m.spotRates pair ⟨pair, rate, now⟩ }, none)

/-- GetSpotRate: read-only lookup of a spot rate. -/
def GetSpotRate (m : Manager) (pair : String) : Except String SpotRate :=
  match alLookup m.spotRates pair with
  | some spot => .ok spot
  | none => .error ("spot rate not found for pair " ++ pair)

/-- UpdateDiscountCurve: validates flatRate ≥ 0, then stores the entry. -/
def UpdateDiscountCurve (m : Manager) (currency : String) (flatRate : ℚ)
    (compounding : String) (now : ℕ) : Manager × Option String :=
  if flatRate < 0 then
    (m, some ("invalid flat rate " ++ toString flatRate ++ " for currency " ++
      currency ++ ": must be non-negative"))
  else
    ({ m with discountCurves :=
        alInsert m.discountCurves currency ⟨currency, flatRate, compounding, now⟩ },
      none)

/-- GetDiscountCurve: read-only lookup of a discount curve. -/
def GetDiscountCurve (m : Manager) (currency : String) : Except String DiscountCurve :=
  match alLookup m.discountCurves currency with
  | some curve => .ok curve
  | none => .error ("discount curve not found for currency " ++ currency)

/-- UpdateVolSurface: validates 0 ≤ flatVol ≤ 1, then stores the entry. -/
def UpdateVolSurface (m : Manager) (pair : String) (flatVol : ℚ) (now : ℕ) :
    Manager × Option String :=
  if flatVol < 0 ∨ 1 < flatVol then
    (m, some ("invalid flat volatility " ++ toString flatVol ++ " for pair " ++
      pair ++ ": must be between 0 and 1"))
  else
    ({ m with volSurfaces := alInsert m.volSurfaces pair ⟨pair, flatVol, now⟩ }, none)

/-- GetVolSurface: read-only lookup of a volatility surface. -/
def GetVolSurface (m : Manager) (pair : String) : Except String VolSurface :=
  match alLookup m.volSurfaces pair with
  | some surface => .ok surface
  | none => .error ("vol surface not found for pair " ++ pair)

/-- GetSnapshot: a point-in-time copy of the three maps.  The source performs
a deep copy entry by entry; at the level of map contents the copy is equal to
the originals, so the value model returns them directly (the reference model
in namespace Ref accounts for the fresh map objects). -/
def GetSnapshot (m : Manager) (now : ℕ) : MarketSnapshot :=
  ⟨m.spotRates, m.discountCurves, m.volSurfaces, now⟩

/-- LoadSnapshot: replaces all three maps with the snapshot contents, with no
validation of the loaded values. -/
def LoadSnapshot (m : Manager) (snapshot : MarketSnapshot) : Manager :=
  { m with
    spotRates := snapshot.SpotRates
    discountCurves := snapshot.DiscountCurves
    volSurfaces := snapshot.VolSurfaces }

/-- Stats: entry counts of the three maps, keyed as in the source. -/
def Stats (m : Manager) : List (String × ℕ) :=
  [("spot_rates", m.spotRates.length),
   ("discount_curves", m.discountCurves.length),
   ("vol_surfaces", m.volSurfaces.length)]

/-- One public mutating call on the Manager, with its arguments. -/
inductive MOp where
  | updSpot (pair : String) (rate : ℚ) (now : ℕ)
  | updCurve (currency : String) (flatRate : ℚ) (compounding : String) (now : ℕ)
  | updVol (pair : String) (flatVol : ℚ) (now : ℕ)
  | loadSnap (snapshot : MarketSnapshot)
deriving DecidableEq

/-- The manager state after one public call (a rejected update leaves the
state as it was, exactly as the early returns in the source do). -/
def applyOp (m : Manager) : MOp → Manager
  | .updSpot p r n => (UpdateSpotRate m p r n).1
  | .updCurve c fr cp n => (UpdateDiscountCurve m c fr cp n).1
  | .updVol p v n => (UpdateVolSurface m p v n).1
  | .loadSnap s => LoadSnapshot m s

/-- The manager state after a sequence of public calls. -/
def runOps (m : Manager) (ops : List MOp) : Manager := ops.foldl applyOp m

/-- Whether an operation can only introduce strictly positive spot rates: a
LoadSnapshot qualifies when every spot rate in its argument is positive; the
update operations validate their own input and always qualify. -/
def loadsPositiveSpots : MOp → Bool
  | .loadSnap s => s.SpotRates.all (fun kv => decide (0 < kv.2.Rate))
  | _ => true

/-- All spot rates stored in the manager are strictly positive. -/
def spotPos (m : Manager) : Prop := ∀ kv ∈ m.spotRates, 0 < kv.2.Rate

end Market

namespace Ref

/-!
Reference-semantics model of manager.go.  Go maps are reference values: the
Manager struct holds references to three map objects, GetSnapshot copies the
objects (fresh references, equal contents), while LoadSnapshot installs the
argument snapshot's references themselves into the Manager.  The heap below
makes those references explicit as addresses.
-/

/-- The heap of live Go map objects, one store per map type, plus the next
fresh address. -/
structure Heap where
  spotMaps : List (ℕ × List (String × Market.SpotRate))
  curveMaps : List (ℕ × List (String × Market.DiscountCurve))
  volMaps : List (ℕ × List (String × Market.VolSurface))
  next : ℕ
deriving DecidableEq

/-- A heap with no live map objects. -/
def emptyHeap : Heap := ⟨[], [], [], 0⟩

/-- A Manager value: three map references. -/
structure ManagerRef where
  spotAddr : ℕ
  curveAddr : ℕ
  volAddr : ℕ
deriving DecidableEq

/-- A MarketSnapshot value: three map references and the snapshot time. -/
structure SnapshotRef where
  spotAddr : ℕ
  curveAddr : ℕ
  volAddr : ℕ
  SnapshotTime : ℕ
deriving DecidableEq

/-- Contents of the spot-rate map object at an address (a missing address
reads as the empty map; the API only ever dereferences live addresses). -/
def readSpot (h : Heap) (a : ℕ) : List (String × Market.SpotRate) :=
  (alLookup h.spotMaps a).getD []

/-- Contents of the discount-curve map object at an address. -/
def readCurve (h : Heap) (a : ℕ) : List (String × Market.DiscountCurve) :=
  (alLookup h.curveMaps a).getD []

/-- Contents of the vol-surface map object at an address. -/
def readVol (h : Heap) (a : ℕ) : List (String × Market.VolSurface) :=
  (alLookup h.volMaps a).getD []

/-- Overwrite the spot-rate map object at an address. -/
def writeSpot (h : Heap) (a : ℕ) (mp : List (String × Market.SpotRate)) : Heap :=
  { h with spotMaps := alInsert h.spotMaps a mp }

/-- Overwrite the discount-curve map object at an address. -/
def writeCurve (h : Heap) (a : ℕ) (mp : List (String × Market.DiscountCurve)) : Heap :=
  { h with curveMaps := alInsert h.curveMaps a mp }

/-- Overwrite the vol-surface map object at an address. -/
def writeVol (h : Heap) (a : ℕ) (mp : List (String × Market.VolSurface)) : Heap :=
  { h with volMaps := alInsert h.volMaps a mp }

/-- NewManager: make() three fresh empty maps and hold their references. -/
def NewManager (h : Heap) : Heap × ManagerRef :=
  (⟨alInsert h.spotMaps h.next [],
    alInsert h.curveMaps (h.next + 1) [],
    alInsert h.volMaps (h.next + 2) [],
    h.next + 3⟩,
   ⟨h.next, h.next + 1, h.next + 2⟩)

/-- UpdateSpotRate: validate, then assign into the map object the Manager
references.  Returns the heap after the call and the returned error. -/
def UpdateSpotRate (h : Heap) (m : ManagerRef) (pair : String) (rate : ℚ)
    (now : ℕ) : Heap × Option String :=
  if rate ≤ 0 then
    (h, some ("invalid rate " ++ toString rate ++ " for pair " ++ pair ++
      ": must be positive"))
  else
    (writeSpot h m.spotAddr (alInsert (readSpot h m.spotAddr) pair ⟨pair, rate, now⟩),
     none)

/-- UpdateDiscountCurve: validate, then assign into the referenced map. -/
def UpdateDiscountCurve (h : Heap) (m : ManagerRef) (currency : String)
    (flatRate : ℚ) (compounding : String) (now : ℕ) : Heap × Option String :=
  if flatRate < 0 then
    (h, some ("invalid flat rate " ++ toString flatRate ++ " for currency " ++
      currency ++ ": must be non-negative"))
  else
    (writeCurve h m.curveAddr
      (alInsert (readCurve h m.curveAddr) currency ⟨currency, flatRate, compounding, now⟩),
     none)

/-- UpdateVolSurface: validate, then assign into the referenced map. -/
def UpdateVolSurface (h : Heap) (m : ManagerRef) (pair : String) (flatVol : ℚ)
    (now : ℕ) : Heap × Option String :=
  if flatVol < 0 ∨ 1 < flatVol then
    (h, some ("invalid flat volatility " ++ toString flatVol ++ " for pair " ++
      pair ++ ": must be between 0 and 1"))
  else
    (writeVol h m.volAddr (alInsert (readVol h m.volAddr) pair ⟨pair, flatVol, now⟩),
     none)

/-- GetSnapshot: allocate three fresh map objects, copy the Manager's map
contents into them entry by entry, and return references to the copies. -/
def GetSnapshot (h : Heap) (m : ManagerRef) (now : ℕ) : Heap × SnapshotRef :=
  (⟨alInsert h.spotMaps h.next (readSpot h m.spotAddr),
    alInsert h.curveMaps (h.next + 1) (readCurve h m.curveAddr),
    alInsert h.volMaps (h.next + 2) (readVol h m.volAddr),
    h.next + 3⟩,
   ⟨h.next, h.next + 1, h.next + 2, now⟩)

/-- LoadSnapshot: the assignments m.spotRates = snapshot.SpotRates (etc.)
install the snapshot's map references into the Manager; no map object is
copied or modified, so the heap is unchanged.  All three fields are replaced,
so the prior manager value is not read. -/
def LoadSnapshot (_m : ManagerRef) (s : SnapshotRef) : ManagerRef :=
  ⟨s.spotAddr, s.curveAddr, s.volAddr⟩

/-- One mutating call on the Manager, with its arguments. -/
inductive MOp where
  | updSpot (pair : String) (rate : ℚ) (now : ℕ)
  | updCurve (currency : String) (flatRate : ℚ) (compounding : String) (now : ℕ)
  | updVol (pair : String) (flatVol : ℚ) (now : ℕ)
  | loadSnap (s : SnapshotRef)
deriving DecidableEq

/-- Heap and manager after one mutating call. -/
def runOp : Heap × ManagerRef → MOp → Heap × ManagerRef
  | (h, m), .updSpot p r n => ((UpdateSpotRate h m p r n).1, m)
  | (h, m), .updCurve c fr cp n => ((UpdateDiscountCurve h m c fr cp n).1, m)
  | (h, m), .updVol p v n => ((UpdateVolSurface h m p v n).1, m)
  | (h, m), .loadSnap s => (h, LoadSnapshot m s)

/-- Heap and manager after a sequence of mutating calls. -/
def runOps (st : Heap × ManagerRef) (ops : List MOp) : Heap × ManagerRef :=
  ops.foldl runOp st

/-- The spot-rate contents a snapshot reference sees in a heap. -/
def snapSpots (h : Heap) (s : SnapshotRef) : List (String × Market.SpotRate) :=
  readSpot h s.spotAddr

/-- The discount-curve contents a snapshot reference sees in a heap. -/
def snapCurves (h : Heap) (s : SnapshotRef) : List (String × Market.DiscountCurve) :=
  readCurve h s.curveAddr

/-- The vol-surface contents a snapshot reference sees in a heap. -/
def snapVols (h : Heap) (s : SnapshotRef) : List (String × Market.VolSurface) :=
  readVol h s.volAddr

/-- An operation does not alias the snapshot s: a LoadSnapshot qualifies when
its argument shares none of s's map references; updates always qualify. -/
def noAlias (s : SnapshotRef) : MOp → Bool
  | .loadSnap s' =>
      decide (s'.spotAddr ≠ s.spotAddr) &&
      decide (s'.curveAddr ≠ s.curveAddr) &&
      decide (s'.volAddr ≠ s.volAddr)
  | _ => true

end Ref

namespace Pricing

/-!
The valuation engine lives in the Haskell pricing service (src/FX/Pricing in
the architecture notes) and is not part of this repository checkout; only its
callers and the market data that feeds it are.  The definitions below are
therefore modelled from the specification, §4.1–§4.3, over the market data
shape this repository actually produces (the Manager's snapshots: flat
discount curves with a compounding convention, flat volatilities).
-/

/-- Modelled from the spec: the pricing model selector of PricingParams; only
BlackScholes has an implemented reduction. -/
inductive PricingModel where
  | BlackScholes | LocalVol | Heston
deriving DecidableEq

/-- Modelled from the spec: the typed failures of §7 that the missing engine
returns. -/
inductive PError where
  | MissingMarketData (key : String)
  | InvalidDate
  | UnsupportedModel
  | UnsupportedInterpolation
  | UnsupportedObservable
  | TypeMismatch
  | MalformedContract
  | NumericDomainError
deriving DecidableEq

/-- Modelled from the spec: PricingParams — valuation date (day number),
numeraire currency, model selector. -/
structure PricingParams where
  valuationDate : ℤ
  numeraire : Models.Currency
  model : PricingModel

/-- A flat discount curve as the gateway's Manager serialises it: a single
rate and a compounding convention. -/
structure FlatCurve where
  rate : ℝ
  compounding : String

/-- Modelled from the spec: the immutable MarketModel snapshot the engine
evaluates against, in the shape the repository's market manager produces —
spot rates keyed by pair name, flat discount curves keyed by currency name,
flat volatilities keyed by pair name, and a correlations map that the
Black-Scholes path never reads. -/
structure MarketModel where
  spotRates : List (String × ℝ)
  discountCurves : List (String × FlatCurve)
  volSurfaces : List (String × ℝ)
  correlations : List (String × ℝ)

/-- The wire key of a currency pair, ordered foreign/domestic. -/
def pairKey (f d : Models.Currency) : String :=
  Models.currencyNames f ++ "/" ++ Models.currencyNames d

/-- Modelled from the spec: the Act/365 year fraction between two dates. -/
noncomputable def yearFrac (valuationDate t : ℤ) : ℝ :=
  ((t - valuationDate : ℤ) : ℝ) / 365

/-- Modelled from the spec: the curve resolver of §4.1 for the flat curves
this repository produces — DF(t) = exp(-r·τ) for continuous compounding, the
standard closed forms for annual and semiannual compounding, and an explicit
failure for any other convention (never a silent default). -/
noncomputable def discountFactor (mkt : MarketModel) (valuationDate : ℤ)
    (ccy : Models.Currency) (t : ℤ) : Except PError ℝ :=
  match alLookup mkt.discountCurves (Models.currencyNames ccy) with
  | none => .error (.MissingMarketData (Models.currencyNames ccy))
  | some c =>
    if c.compounding = "continuous" then
      .ok (Real.exp (-(c.rate * yearFrac valuationDate t)))
    else if c.compounding = "annual" then
      .ok ((1 + c.rate) ^ (-(yearFrac valuationDate t)))
    else if c.compounding = "semiannual" then
      .ok ((1 + c.rate / 2) ^ (-(2 * yearFrac valuationDate t)))
    else .error .UnsupportedInterpolation

/-- Modelled from the spec: spot-rate resolution of §4.2 — the direct quote
for the pair, else triangulation through the configured reference currency,
else MissingMarketData naming the missing pair.  A pair of equal currencies
resolves to 1. -/
noncomputable def resolveSpot (mkt : MarketModel) (ref : Models.Currency)
    (f d : Models.Currency) : Except PError ℝ :=
  if f = d then .ok 1
  else
    match alLookup mkt.spotRates (pairKey f d) with
    | some r => .ok r
    | none =>
      match alLookup mkt.spotRates (pairKey f ref), alLookup mkt.spotRates (pairKey d ref) with
      | some rf, some rd => .ok (rf / rd)
      | _, _ => .error (.MissingMarketData (pairKey f d))

/-- Modelled from the spec: the surface resolver of §4.1 for the flat
surfaces this repository produces — a flat vol is constant regardless of
strike and maturity. -/
def volAt (mkt : MarketModel) (f d : Models.Currency) (_strike : ℝ) (_t : ℤ) :
    Except PError ℝ :=
  match alLookup mkt.volSurfaces (pairKey f d) with
  | some v => .ok v
  | none => .error (.MissingMarketData (pairKey f d))

/-- The standard normal density. -/
noncomputable def normPdf (x : ℝ) : ℝ :=
  Real.exp (-(x ^ 2) / 2) / Real.sqrt (2 * Real.pi)

/-- Modelled from the spec: Φ on nonnegative arguments, by the closed-form
Abramowitz-Stegun 26.2.17 approximation the spec prescribes (error below
1e-7). -/
noncomputable def normCdfPos (x : ℝ) : ℝ :=
  let t := 1 / (1 + 0.2316419 * x)
  1 - normPdf x *
    (0.319381530 * t - 0.356563782 * t ^ 2 + 1.781477937 * t ^ 3 -
      1.821255978 * t ^ 4 + 1.330274429 * t ^ 5)

/-- Modelled from the spec: the standard normal CDF Φ, extended to negative
arguments by symmetry. -/
noncomputable def normCdf (x : ℝ) : ℝ :=
  if 0 ≤ x then normCdfPos x else 1 - normCdfPos (-x)

/-- Modelled from the spec: the Black-Scholes reduction of §4.3, structural
recursion over the Contract variants this repository defines.  ref is the
configured reference currency used for triangulation. -/
noncomputable def priceBS (mkt : MarketModel) (prm : PricingParams)
    (ref : Models.Currency) : Models.Contract → Except PError ℝ
  | .Zero => .ok 0
  | .Spot _d f => resolveSpot mkt ref f prm.numeraire
  | .ZCB ccy mat =>
    if mat < prm.valuationDate then .error .InvalidDate
    else do
      let df ← discountFactor mkt prm.valuationDate ccy mat
      let s ← resolveSpot mkt ref ccy prm.numeraire
      pure (df * s)
  | .Forward mat k d f => do
      let s ← resolveSpot mkt ref f d
      let dff ← discountFactor mkt prm.valuationDate f mat
      let dfd ← discountFactor mkt prm.valuationDate d mat
      let fwd := s * dff / dfd
      let conv ← resolveSpot mkt ref d prm.numeraire
      pure (dfd * (fwd - k) * conv)
  | .EurOption ty k mat d f =>
    if yearFrac prm.valuationDate mat < 0 then .error .InvalidDate
    else do
      let τ := yearFrac prm.valuationDate mat
      let s ← resolveSpot mkt ref f d
      let dff ← discountFactor mkt prm.valuationDate f mat
      let dfd ← discountFactor mkt prm.valuationDate d mat
      let fwd := s * dff / dfd
      let σ ← volAt mkt f d k mat
      let conv ← resolveSpot mkt ref d prm.numeraire
      if σ = 0 ∨ τ = 0 then
        let intrinsic := match ty with
          | .Call => max 0 (fwd - k)
          | .Put => max 0 (k - fwd)
        pure (dfd * intrinsic * conv)
      else if fwd ≤ 0 ∨ k ≤ 0 then .error .NumericDomainError
      else
        let sq := σ * Real.sqrt τ
        let d1 := (Real.log (fwd / k) + σ ^ 2 * τ / 2) / sq
        let d2 := d1 - sq
        let callPx := dfd * (fwd * normCdf d1 - k * normCdf d2)
        let px := match ty with
          | .Call => callPx
          | .Put => callPx - dfd * (fwd - k)
        pure (px * conv)
  | .Scale n c =>
    match priceBS mkt prm ref c with
    | .error e => .error e
    | .ok p => .ok (n * p)
  | .Combine l r =>
    match priceBS mkt prm ref l with
    | .error e => .error e
    | .ok pl =>
      match priceBS mkt prm ref r with
      | .error e => .error e
      | .ok pr => .ok (pl + pr)

/-- Modelled from the spec: the engine entry point price(Contract,
MarketModel, PricingParams) — the LocalVol and Heston selectors are accepted
syntactically and rejected at evaluation time with UnsupportedModel. -/
noncomputable def price (c : Models.Contract) (mkt : MarketModel)
    (prm : PricingParams) (ref : Models.Currency) : Except PError ℝ :=
  match prm.model with
  | .BlackScholes => priceBS mkt prm ref c
  | .LocalVol => .error .UnsupportedModel
  | .Heston => .error .UnsupportedModel

end Pricing

/-! ## Association-list lemmas -/

theorem alLookup_alInsert_self {K V : Type} [DecidableEq K]
    (l : List (K × V)) (k : K) (v : V) : alLookup (alInsert l k v) k = some v := by
  induction l with
  | nil => simp [alInsert, alLookup]
  | cons hd t ih =>
    obtain ⟨k', v'⟩ := hd
    by_cases hk : k' = k <;> simp [alInsert, alLookup, hk, ih]

theorem alLookup_alInsert_ne {K V : Type} [DecidableEq K]
    (l : List (K × V)) (k k' : K) (v : V) (hne : k' ≠ k) :
    alLookup (alInsert l k v) k' = alLookup l k' := by
  induction l with
  | nil =>
    simp only [alInsert, alLookup]
    rw [if_neg (fun h => hne h.symm)]
  | cons hd t ih =>
    obtain ⟨k'', v''⟩ := hd
    by_cases hk : k'' = k
    · subst hk
      simp only [alInsert, if_pos rfl, alLookup]
      rw [if_neg (fun h => hne h.symm), if_neg (fun h => hne h.symm)]
    · simp only [alInsert, if_neg hk, alLookup, ih]

theorem alLookup_mem {K V : Type} [DecidableEq K]
    {l : List (K × V)} {k : K} {v : V} (h : alLookup l k = some v) : (k, v) ∈ l := by
  induction l with
  | nil => simp [alLookup] at h
  | cons hd t ih =>
    obtain ⟨k', v'⟩ := hd
    by_cases hk : k' = k
    · subst hk
      rw [show alLookup ((k', v') :: t) k' = some v' by simp [alLookup]] at h
      obtain rfl : v' = v := by simpa using h
      exact List.mem_cons_self _ _
    · simp only [alLookup, if_neg hk] at h
      exact List.mem_cons_of_mem _ (ih h)

theorem mem_alInsert {K V : Type} [DecidableEq K]
    {l : List (K × V)} {k : K} {v : V} {x : K × V} (h : x ∈ alInsert l k v) :
    x = (k, v) ∨ x ∈ l := by
  induction l with
  | nil => simpa [alInsert] using h
  | cons hd t ih =>
    obtain ⟨k', v'⟩ := hd
    by_cases hk : k' = k
    · subst hk
      rw [show alInsert ((k', v') :: t) k' v = (k', v) :: t by simp [alInsert]] at h
      rcases List.mem_cons.mp h with h1 | h1
      · exact Or.inl h1
      · exact Or.inr (List.mem_cons_of_mem _ h1)
    · simp only [alInsert, if_neg hk] at h
      rcases List.mem_cons.mp h with h1 | h1
      · exact Or.inr (h1 ▸ List.mem_cons_self _ _)
      · rcases ih h1 with h2 | h2
        · exact Or.inl h2
        · exact Or.inr (List.mem_cons_of_mem _ h2)

/-! ## Lookup behaviour of the three getters -/

theorem GetSpotRate_ok_iff (m : Market.Manager) (p : String) (v : Market.SpotRate) :
    Market.GetSpotRate m p = .ok v ↔ alLookup m.spotRates p = some v := by
  unfold Market.GetSpotRate
  cases h : alLookup m.spotRates p <;> simp

theorem GetSpotRate_none (m : Market.Manager) (p : String)
    (h : alLookup m.spotRates p = none) :
    Market.GetSpotRate m p = .error ("spot rate not found for pair " ++ p) := by
  unfold Market.GetSpotRate
  rw [h]

theorem GetDiscountCurve_ok_iff (m : Market.Manager) (c : String)
    (v : Market.DiscountCurve) :
    Market.GetDiscountCurve m c = .ok v ↔ alLookup m.discountCurves c = some v := by
  unfold Market.GetDiscountCurve
  cases h : alLookup m.discountCurves c <;> simp

theorem GetDiscountCurve_none (m : Market.Manager) (c : String)
    (h : alLookup m.discountCurves c = none) :
    Market.GetDiscountCurve m c = .error ("discount curve not found for currency " ++ c) := by
  unfold Market.GetDiscountCurve
  rw [h]

theorem GetVolSurface_ok_iff (m : Market.Manager) (p : String) (v : Market.VolSurface) :
    Market.GetVolSurface m p = .ok v ↔ alLookup m.volSurfaces p = some v := by
  unfold Market.GetVolSurface
  cases h : alLookup m.volSurfaces p <;> simp

theorem GetVolSurface_none (m : Market.Manager) (p : String)
    (h : alLookup m.volSurfaces p = none) :
    Market.GetVolSurface m p = .error ("vol surface not found for pair " ++ p) := by
  unfold Market.GetVolSurface
  rw [h]

/-- Claim C4: each market-data lookup returns the currently stored entry
exactly when the key is present in the store, and otherwise returns an error
whose message names the missing pair or currency.  The getters take only
RLock in the source and perform no writes; accordingly they are embedded as
pure functions of the manager state. -/
theorem lookup_spec : ∀ (m : Market.Manager) (pair currency : String),
    (∀ v, Market.GetSpotRate m pair = .ok v ↔ alLookup m.spotRates pair = some v) ∧
    (alLookup m.spotRates pair = none →
      Market.GetSpotRate m pair = .error ("spot rate not found for pair " ++ pair)) ∧
    (∀ v, Market.GetDiscountCurve m currency = .ok v ↔
      alLookup m.discountCurves currency = some v) ∧
    (alLookup m.discountCurves currency = none →
      Market.GetDiscountCurve m currency =
        .error ("discount curve not found for currency " ++ currency)) ∧
    (∀ v, Market.GetVolSurface m pair = .ok v ↔ alLookup m.volSurfaces pair = some v) ∧
    (alLookup m.volSurfaces pair = none →
      Market.GetVolSurface m pair = .error ("vol surface not found for pair " ++ pair)) := by
  intro m pair currency
  exact ⟨fun v => GetSpotRate_ok_iff m pair v, GetSpotRate_none m pair,
    fun v => GetDiscountCurve_ok_iff m currency v, GetDiscountCurve_none m currency,
    fun v => GetVolSurface_ok_iff m pair v, GetVolSurface_none m pair⟩

/-- Witness for C4 at a concrete manager and keys. -/
theorem lookup_spec_witness :
    alLookup Market.NewManager.spotRates "EUR/USD" = none ∧
    Market.GetSpotRate Market.NewManager "EUR/USD" =
      .error ("spot rate not found for pair " ++ "EUR/USD") :=
  ⟨rfl, (lookup_spec Market.NewManager "EUR/USD" "USD").2.1 rfl⟩

/-- Claim C10: a Manager freshly created by NewManager is empty — every
lookup fails naming the key, and Stats reports zero for all three maps. -/
theorem new_manager_empty : ∀ key : String,
    Market.GetSpotRate Market.NewManager key =
      .error ("spot rate not found for pair " ++ key) ∧
    Market.GetDiscountCurve Market.NewManager key =
      .error ("discount curve not found for currency " ++ key) ∧
    Market.GetVolSurface Market.NewManager key =
      .error ("vol surface not found for pair " ++ key) ∧
    alLookup (Market.Stats Market.NewManager) "spot_rates" = some 0 ∧
    alLookup (Market.Stats Market.NewManager) "discount_curves" = some 0 ∧
    alLookup (Market.Stats Market.NewManager) "vol_surfaces" = some 0 := by
  intro key
  exact ⟨rfl, rfl, rfl, rfl, by decide, by decide⟩

/-- Witness for C10 at a concrete key. -/
theorem new_manager_empty_witness :
    Market.GetSpotRate Market.NewManager "EUR/USD" =
      .error ("spot rate not found for pair " ++ "EUR/USD") :=
  (new_manager_empty "EUR/USD").1

/-- Claim C5: Currency is a closed enumeration of USD, EUR, GBP, JPY, CHF,
AUD, CAD; ParseCurrency inverts the String method on each value and rejects
every other string with an error naming it. -/
theorem currency_roundtrip :
    (∀ c : Models.Currency, c ∈ Models.allCurrencies) ∧
    (∀ c : Models.Currency, Models.ParseCurrency (Models.currencyNames c) = .ok c) ∧
    (∀ s : String, (∀ c : Models.Currency, Models.currencyNames c ≠ s) →
      Models.ParseCurrency s = .error ("unknown currency: " ++ s)) := by
  refine ⟨?_, ?_, ?_⟩
  · intro c
    cases c <;> simp [Models.allCurrencies]
  · intro c
    cases c <;> rfl
  · intro s h
    have hnone : Models.allCurrencies.find? (fun c => Models.currencyNames c == s) = none := by
      rw [List.find?_eq_none]
      intro c _
      simpa using h c
    unfold Models.ParseCurrency
    rw [hnone]

/-- Witness for C5 at a concrete non-currency string. -/
theorem currency_roundtrip_witness :
    (∀ c : Models.Currency, Models.currencyNames c ≠ "XYZ") ∧
    Models.ParseCurrency "XYZ" = .error ("unknown currency: " ++ "XYZ") :=
  ⟨by intro c; cases c <;> decide, currency_roundtrip.2.2 "XYZ" (by intro c; cases c <;> decide)⟩

/-- Counterexample to C6 as stated: the volatility 2 is nonnegative, yet
UpdateVolSurface rejects it, because the source also enforces an upper bound
of 1. -/
theorem vol_update_cex :
    (0 : ℚ) ≤ 2 ∧ (Market.UpdateVolSurface Market.NewManager "EUR/USD" 2 0).2 ≠ none := by
  refine ⟨by norm_num, ?_⟩
  rw [show (Market.UpdateVolSurface Market.NewManager "EUR/USD" 2 0).2 =
    some ("invalid flat volatility " ++ toString (2 : ℚ) ++ " for pair " ++
      "EUR/USD" ++ ": must be between 0 and 1") by
      unfold Market.UpdateVolSurface
      rw [if_pos (by norm_num)]]
  simp

/-- Claim C6 (amended): UpdateVolSurface succeeds and stores the volatility
exactly when 0 ≤ v ≤ 1, and returns an error exactly when v < 0 or v > 1. -/
theorem vol_update_amended : ∀ (m : Market.Manager) (pair : String) (v : ℚ) (now : ℕ),
    (0 ≤ v → v ≤ 1 →
      (Market.UpdateVolSurface m pair v now).2 = none ∧
      alLookup (Market.UpdateVolSurface m pair v now).1.volSurfaces pair =
        some ⟨pair, v, now⟩) ∧
    ((Market.UpdateVolSurface m pair v now).2.isSome = true ↔ (v < 0 ∨ 1 < v)) := by
  intro m pair v now
  unfold Market.UpdateVolSurface
  by_cases hc : v < 0 ∨ 1 < v
  · rw [if_pos hc]
    refine ⟨fun h0 h1 => ?_, by simpa using hc⟩
    rcases hc with hc | hc
    · exact absurd h0 (not_le.mpr hc)
    · exact absurd h1 (not_le.mpr hc)
  · rw [if_neg hc]
    exact ⟨fun _ _ => ⟨rfl, alLookup_alInsert_self _ _ _⟩, by simpa using hc⟩

/-- Witness for the amended C6 at a concrete in-range volatility. -/
theorem vol_update_witness :
    (0 : ℚ) ≤ 1 / 2 ∧ (1 : ℚ) / 2 ≤ 1 ∧
    alLookup (Market.UpdateVolSurface Market.NewManager "EUR/USD" (1 / 2) 3).1.volSurfaces
      "EUR/USD" = some ⟨"EUR/USD", 1 / 2, 3⟩ :=
  ⟨by norm_num, by norm_num,
    ((vol_update_amended Market.NewManager "EUR/USD" (1 / 2) 3).1
      (by norm_num) (by norm_num)).2⟩

/-- Claim C8: whenever one of the update operations returns an error, the
manager state is exactly what it was before the call (the source validates
before mutating anything). -/
theorem update_atomic : ∀ (m : Market.Manager) (pair currency compounding : String)
    (rate flatRate flatVol : ℚ) (now : ℕ),
    ((Market.UpdateSpotRate m pair rate now).2 ≠ none →
      (Market.UpdateSpotRate m pair rate now).1 = m) ∧
    ((Market.UpdateDiscountCurve m currency flatRate compounding now).2 ≠ none →
      (Market.UpdateDiscountCurve m currency flatRate compounding now).1 = m) ∧
    ((Market.UpdateVolSurface m pair flatVol now).2 ≠ none →
      (Market.UpdateVolSurface m pair flatVol now).1 = m) := by
  intro m pair currency compounding rate flatRate flatVol now
  refine ⟨?_, ?_, ?_⟩
  · unfold Market.UpdateSpotRate
    split <;> simp
  · unfold Market.UpdateDiscountCurve
    split <;> simp
  · unfold Market.UpdateVolSurface
    split <;> simp

/-- Witness for C8 at a concrete rejected update. -/
theorem update_atomic_witness :
    (Market.UpdateSpotRate Market.NewManager "EUR/USD" (-1) 0).2 ≠ none ∧
    (Market.UpdateSpotRate Market.NewManager "EUR/USD" (-1) 0).1 = Market.NewManager := by
  have hne : (Market.UpdateSpotRate Market.NewManager "EUR/USD" (-1) 0).2 ≠ none := by
    rw [show (Market.UpdateSpotRate Market.NewManager "EUR/USD" (-1) 0).2 =
      some ("invalid rate " ++ toString (-1 : ℚ) ++ " for pair " ++ "EUR/USD" ++
        ": must be positive") by
        unfold Market.UpdateSpotRate
        rw [if_pos (by norm_num)]]
    simp
  exact ⟨hne,
    (update_atomic Market.NewManager "EUR/USD" "USD" "continuous" (-1) 0 0 0).1 hne⟩

/-- Claim C9: LoadSnapshot replaces the entire store without validation —
after a load, each getter succeeds exactly on the keys of the corresponding
snapshot map and returns the loaded entry, and every absent key fails. -/
theorem load_snapshot_spec : ∀ (m : Market.Manager) (s : Market.MarketSnapshot)
    (pair currency : String),
    (∀ v, Market.GetSpotRate (Market.LoadSnapshot m s) pair = .ok v ↔
      alLookup s.SpotRates pair = some v) ∧
    (alLookup s.SpotRates pair = none →
      Market.GetSpotRate (Market.LoadSnapshot m s) pair =
        .error ("spot rate not found for pair " ++ pair)) ∧
    (∀ v, Market.GetDiscountCurve (Market.LoadSnapshot m s) currency = .ok v ↔
      alLookup s.DiscountCurves currency = some v) ∧
    (alLookup s.DiscountCurves currency = none →
      Market.GetDiscountCurve (Market.LoadSnapshot m s) currency =
        .error ("discount curve not found for currency " ++ currency)) ∧
    (∀ v, Market.GetVolSurface (Market.LoadSnapshot m s) pair = .ok v ↔
      alLookup s.VolSurfaces pair = some v) ∧
    (alLookup s.VolSurfaces pair = none →
      Market.GetVolSurface (Market.LoadSnapshot m s) pair =
        .error ("vol surface not found for pair " ++ pair)) := by
  intro m s pair currency
  exact ⟨fun v => GetSpotRate_ok_iff (Market.LoadSnapshot m s) pair v,
    GetSpotRate_none (Market.LoadSnapshot m s) pair,
    fun v => GetDiscountCurve_ok_iff (Market.LoadSnapshot m s) currency v,
    GetDiscountCurve_none (Market.LoadSnapshot m s) currency,
    fun v => GetVolSurface_ok_iff (Market.LoadSnapshot m s) pair v,
    GetVolSurface_none (Market.LoadSnapshot m s) pair⟩

/-- Witness for C9: loading a snapshot whose spot rate is negative — a value
every update operation would reject — makes that very value retrievable. -/
theorem load_snapshot_spec_witness :
    Market.GetSpotRate
      (Market.LoadSnapshot Market.NewManager
        ⟨[("EUR/USD", ⟨"EUR/USD", -1, 0⟩)], [], [], 0⟩) "EUR/USD" =
      .ok ⟨"EUR/USD", -1, 0⟩ :=
  ((load_snapshot_spec Market.NewManager
      ⟨[("EUR/USD", ⟨"EUR/USD", -1, 0⟩)], [], [], 0⟩ "EUR/USD" "USD").1
    ⟨"EUR/USD", -1, 0⟩).mpr (by decide)

/-- A rejected or successful discount-curve update never touches the spot
rates. -/
theorem UpdateDiscountCurve_spotRates (m : Market.Manager) (c : String) (fr : ℚ)
    (cp : String) (n : ℕ) :
    (Market.UpdateDiscountCurve m c fr cp n).1.spotRates = m.spotRates := by
  unfold Market.UpdateDiscountCurve
  split <;> rfl

/-- A rejected or successful vol-surface update never touches the spot
rates. -/
theorem UpdateVolSurface_spotRates (m : Market.Manager) (p : String) (v : ℚ)
    (n : ℕ) :
    (Market.UpdateVolSurface m p v n).1.spotRates = m.spotRates := by
  unfold Market.UpdateVolSurface
  split <;> rfl

/-- One public call preserves positivity of the stored spot rates, as long as
a LoadSnapshot only brings strictly positive spot rates. -/
theorem applyOp_spotPos (m : Market.Manager) (op : Market.MOp)
    (hm : Market.spotPos m) (hop : Market.loadsPositiveSpots op = true) :
    Market.spotPos (Market.applyOp m op) := by
  cases op with
  | updSpot p r n =>
    simp only [Market.applyOp]
    by_cases hr : r ≤ 0
    · rw [show (Market.UpdateSpotRate m p r n).1 = m by
        unfold Market.UpdateSpotRate; rw [if_pos hr]]
      exact hm
    · rw [show (Market.UpdateSpotRate m p r n).1 =
        { m with spotRates := alInsert m.spotRates p ⟨p, r, n⟩ } by
          unfold Market.UpdateSpotRate; rw [if_neg hr]]
      intro kv hkv
      rcases mem_alInsert hkv with h1 | h1
      · subst h1
        exact lt_of_not_le hr
      · exact hm kv h1
  | updCurve c fr cp n =>
    simp only [Market.applyOp]
    intro kv hkv
    rw [UpdateDiscountCurve_spotRates] at hkv
    exact hm kv hkv
  | updVol p v n =>
    simp only [Market.applyOp]
    intro kv hkv
    rw [UpdateVolSurface_spotRates] at hkv
    exact hm kv hkv
  | loadSnap s =>
    simp only [Market.applyOp, Market.LoadSnapshot]
    intro kv hkv
    simp only [Market.loadsPositiveSpots, List.all_eq_true] at hop
    have := hop kv hkv
    simpa using this

/-- A sequence of public calls preserves positivity of the stored spot
rates, under the same condition on LoadSnapshot arguments. -/
theorem runOps_spotPos : ∀ (ops : List Market.MOp) (m : Market.Manager),
    Market.spotPos m → (∀ op ∈ ops, Market.loadsPositiveSpots op = true) →
    Market.spotPos (Market.runOps m ops) := by
  intro ops
  induction ops with
  | nil => intro m hm _; exact hm
  | cons op t ih =>
    intro m hm hops
    rw [show Market.runOps m (op :: t) = Market.runOps (Market.applyOp m op) t from rfl]
    exact ih (Market.applyOp m op)
      (applyOp_spotPos m op hm (hops op (List.mem_cons_self _ _)))
      (fun o ho => hops o (List.mem_cons_of_mem _ ho))

/-- Counterexample to C2 as stated: LoadSnapshot is among the public
operations and performs no validation, so a state holding a negative spot
rate is reachable from NewManager, and GetSpotRate then returns it. -/
theorem spot_positivity_cex :
    ¬ (∀ (ops : List Market.MOp) (p : String) (r : Market.SpotRate),
        Market.GetSpotRate (Market.runOps Market.NewManager ops) p = .ok r →
        0 < r.Rate) := by
  intro h
  have := h [Market.MOp.loadSnap ⟨[("EUR/USD", ⟨"EUR/USD", -1, 0⟩)], [], [], 0⟩]
    "EUR/USD" ⟨"EUR/USD", -1, 0⟩ rfl
  norm_num at this

/-- Claim C2 (amended): every state reachable from NewManager by public
operations whose LoadSnapshot arguments carry only strictly positive spot
rates contains only strictly positive spot rates; whenever GetSpotRate
succeeds there, the returned rate is positive. -/
theorem spot_positivity_amended : ∀ (ops : List Market.MOp),
    (∀ op ∈ ops, Market.loadsPositiveSpots op = true) →
    ∀ (p : String) (r : Market.SpotRate),
    Market.GetSpotRate (Market.runOps Market.NewManager ops) p = .ok r →
    0 < r.Rate := by
  intro ops hops p r hget
  have hpos := runOps_spotPos ops Market.NewManager
    (by intro kv hkv; simp [Market.NewManager] at hkv) hops
  exact hpos _ (alLookup_mem ((GetSpotRate_ok_iff _ _ _).mp hget))

/-! ## Snapshot aliasing (reference model) -/

/-- Writing the spot map object at one address leaves the contents seen at
any other address unchanged. -/
theorem readSpot_writeSpot_ne (h : Ref.Heap) (a b : ℕ)
    (mp : List (String × Market.SpotRate)) (hne : b ≠ a) :
    Ref.readSpot (Ref.writeSpot h a mp) b = Ref.readSpot h b := by
  unfold Ref.readSpot Ref.writeSpot
  rw [alLookup_alInsert_ne h.spotMaps a b mp hne]

/-- Writing the curve map object at one address leaves the contents seen at
any other address unchanged. -/
theorem readCurve_writeCurve_ne (h : Ref.Heap) (a b : ℕ)
    (mp : List (String × Market.DiscountCurve)) (hne : b ≠ a) :
    Ref.readCurve (Ref.writeCurve h a mp) b = Ref.readCurve h b := by
  unfold Ref.readCurve Ref.writeCurve
  rw [alLookup_alInsert_ne h.curveMaps a b mp hne]

/-- Writing the vol map object at one address leaves the contents seen at
any other address unchanged. -/
theorem readVol_writeVol_ne (h : Ref.Heap) (a b : ℕ)
    (mp : List (String × Market.VolSurface)) (hne : b ≠ a) :
    Ref.readVol (Ref.writeVol h a mp) b = Ref.readVol h b := by
  unfold Ref.readVol Ref.writeVol
  rw [alLookup_alInsert_ne h.volMaps a b mp hne]

/-- One public call on a manager that shares no map reference with the
snapshot s leaves all contents s sees unchanged, and (when the call does not
load an s-aliasing snapshot) the resulting manager again shares no map
reference with s. -/
theorem runOp_snapshot_frame (s : Ref.SnapshotRef) (h : Ref.Heap)
    (m : Ref.ManagerRef) (op : Ref.MOp) (hop : Ref.noAlias s op = true)
    (h1 : m.spotAddr ≠ s.spotAddr) (h2 : m.curveAddr ≠ s.curveAddr)
    (h3 : m.volAddr ≠ s.volAddr) :
    Ref.snapSpots (Ref.runOp (h, m) op).1 s = Ref.snapSpots h s ∧
    Ref.snapCurves (Ref.runOp (h, m) op).1 s = Ref.snapCurves h s ∧
    Ref.snapVols (Ref.runOp (h, m) op).1 s = Ref.snapVols h s ∧
    (Ref.runOp (h, m) op).2.spotAddr ≠ s.spotAddr ∧
    (Ref.runOp (h, m) op).2.curveAddr ≠ s.curveAddr ∧
    (Ref.runOp (h, m) op).2.volAddr ≠ s.volAddr := by
  cases op with
  | updSpot p r n =>
    simp only [Ref.runOp]
    refine ⟨?_, ?_, ?_, h1, h2, h3⟩
    · unfold Ref.UpdateSpotRate
      split
      · rfl
      · exact readSpot_writeSpot_ne _ _ _ _ (Ne.symm h1)
    · unfold Ref.UpdateSpotRate Ref.snapCurves Ref.readCurve Ref.writeSpot
      split <;> rfl
    · unfold Ref.UpdateSpotRate Ref.snapVols Ref.readVol Ref.writeSpot
      split <;> rfl
  | updCurve c fr cp n =>
    simp only [Ref.runOp]
    refine ⟨?_, ?_, ?_, h1, h2, h3⟩
    · unfold Ref.UpdateDiscountCurve Ref.snapSpots Ref.readSpot Ref.writeCurve
      split <;> rfl
    · unfold Ref.UpdateDiscountCurve
      split
      · rfl
      · exact readCurve_writeCurve_ne _ _ _ _ (Ne.symm h2)
    · unfold Ref.UpdateDiscountCurve Ref.snapVols Ref.readVol Ref.writeCurve
      split <;> rfl
  | updVol p v n =>
    simp only [Ref.runOp]
    refine ⟨?_, ?_, ?_, h1, h2, h3⟩
    · unfold Ref.UpdateVolSurface Ref.snapSpots Ref.readSpot Ref.writeVol
      split <;> rfl
    · unfold Ref.UpdateVolSurface Ref.snapCurves Ref.readCurve Ref.writeVol
      split <;> rfl
    · unfold Ref.UpdateVolSurface
      split
      · rfl
      · exact readVol_writeVol_ne _ _ _ _ (Ne.symm h3)
  | loadSnap s' =>
    simp only [Ref.noAlias, Bool.and_eq_true, decide_eq_true_eq] at hop
    exact ⟨rfl, rfl, rfl, hop.1.1, hop.1.2, hop.2⟩

/-- A sequence of public calls on a manager that shares no map reference with
the snapshot s, none of which loads an s-aliasing snapshot, leaves all
contents s sees unchanged. -/
theorem runOps_snapshot_frame (s : Ref.SnapshotRef) :
    ∀ (ops : List Ref.MOp) (h : Ref.Heap) (m : Ref.ManagerRef),
    (∀ op ∈ ops, Ref.noAlias s op = true) →
    m.spotAddr ≠ s.spotAddr → m.curveAddr ≠ s.curveAddr → m.volAddr ≠ s.volAddr →
    Ref.snapSpots (Ref.runOps (h, m) ops).1 s = Ref.snapSpots h s ∧
    Ref.snapCurves (Ref.runOps (h, m) ops).1 s = Ref.snapCurves h s ∧
    Ref.snapVols (Ref.runOps (h, m) ops).1 s = Ref.snapVols h s := by
  intro ops
  induction ops with
  | nil => intro h m _ _ _ _; exact ⟨rfl, rfl, rfl⟩
  | cons op t ih =>
    intro h m hops h1 h2 h3
    have hstep := runOp_snapshot_frame s h m op (hops op (List.mem_cons_self _ _)) h1 h2 h3
    have hrest := ih (Ref.runOp (h, m) op).1 (Ref.runOp (h, m) op).2
      (fun o ho => hops o (List.mem_cons_of_mem _ ho))
      hstep.2.2.2.1 hstep.2.2.2.2.1 hstep.2.2.2.2.2
    rw [show Ref.runOps (h, m) (op :: t) =
      Ref.runOps ((Ref.runOp (h, m) op).1, (Ref.runOp (h, m) op).2) t from rfl] at *
    exact ⟨hrest.1.trans hstep.1, hrest.2.1.trans hstep.2.1, hrest.2.2.trans hstep.2.2.1⟩

/-- Counterexample to C3 as stated: starting from a fresh manager holding
EUR/USD = 2, take a snapshot s, then perform LoadSnapshot(s) followed by
UpdateSpotRate — two of the public calls the claim quantifies over.  Because
LoadSnapshot installs s's map references into the Manager, the update writes
into s's own spot map, and the contents of s change. -/
theorem snapshot_independent_cex :
    Ref.snapSpots
      (Ref.runOps
        ((Ref.GetSnapshot
            (Ref.UpdateSpotRate (Ref.NewManager Ref.emptyHeap).1
              (Ref.NewManager Ref.emptyHeap).2 "EUR/USD" 2 0).1
            (Ref.NewManager Ref.emptyHeap).2 1).1,
          (Ref.NewManager Ref.emptyHeap).2)
        [Ref.MOp.loadSnap
            (Ref.GetSnapshot
              (Ref.UpdateSpotRate (Ref.NewManager Ref.emptyHeap).1
                (Ref.NewManager Ref.emptyHeap).2 "EUR/USD" 2 0).1
              (Ref.NewManager Ref.emptyHeap).2 1).2,
          Ref.MOp.updSpot "USD/JPY" 150 2]).1
      (Ref.GetSnapshot
        (Ref.UpdateSpotRate (Ref.NewManager Ref.emptyHeap).1
          (Ref.NewManager Ref.emptyHeap).2 "EUR/USD" 2 0).1
        (Ref.NewManager Ref.emptyHeap).2 1).2 ≠
    Ref.snapSpots
      (Ref.GetSnapshot
        (Ref.UpdateSpotRate (Ref.NewManager Ref.emptyHeap).1
          (Ref.NewManager Ref.emptyHeap).2 "EUR/USD" 2 0).1
        (Ref.NewManager Ref.emptyHeap).2 1).1
      (Ref.GetSnapshot
        (Ref.UpdateSpotRate (Ref.NewManager Ref.emptyHeap).1
          (Ref.NewManager Ref.emptyHeap).2 "EUR/USD" 2 0).1
        (Ref.NewManager Ref.emptyHeap).2 1).2 := by
  decide

/-- Claim C3 (amended): a snapshot returned by GetSnapshot references freshly
copied map objects, so its contents are unchanged by any later sequence of
public calls in which no LoadSnapshot argument shares one of the snapshot's
map references (in particular, by any sequence of updates and loads of
unrelated snapshots); and taking the snapshot leaves the Manager's map
references and their contents unchanged. -/
theorem snapshot_independent_amended :
    ∀ (h : Ref.Heap) (m : Ref.ManagerRef) (now : ℕ) (ops : List Ref.MOp),
    m.spotAddr < h.next → m.curveAddr < h.next → m.volAddr < h.next →
    (∀ op ∈ ops, Ref.noAlias (Ref.GetSnapshot h m now).2 op = true) →
    (Ref.snapSpots (Ref.runOps ((Ref.GetSnapshot h m now).1, m) ops).1
        (Ref.GetSnapshot h m now).2 =
      Ref.snapSpots (Ref.GetSnapshot h m now).1 (Ref.GetSnapshot h m now).2 ∧
     Ref.snapCurves (Ref.runOps ((Ref.GetSnapshot h m now).1, m) ops).1
        (Ref.GetSnapshot h m now).2 =
      Ref.snapCurves (Ref.GetSnapshot h m now).1 (Ref.GetSnapshot h m now).2 ∧
     Ref.snapVols (Ref.runOps ((Ref.GetSnapshot h m now).1, m) ops).1
        (Ref.GetSnapshot h m now).2 =
      Ref.snapVols (Ref.GetSnapshot h m now).1 (Ref.GetSnapshot h m now).2) ∧
    (Ref.readSpot (Ref.GetSnapshot h m now).1 m.spotAddr = Ref.readSpot h m.spotAddr ∧
     Ref.readCurve (Ref.GetSnapshot h m now).1 m.curveAddr = Ref.readCurve h m.curveAddr ∧
     Ref.readVol (Ref.GetSnapshot h m now).1 m.volAddr = Ref.readVol h m.volAddr) := by
  intro h m now ops hm1 hm2 hm3 hops
  have hs : (Ref.GetSnapshot h m now).2 =
      ⟨h.next, h.next + 1, h.next + 2, now⟩ := rfl
  constructor
  · exact runOps_snapshot_frame (Ref.GetSnapshot h m now).2 ops
      (Ref.GetSnapshot h m now).1 m hops
      (by rw [hs]; exact Nat.ne_of_lt hm1)
      (by rw [hs]; show m.curveAddr ≠ h.next + 1; omega)
      (by rw [hs]; show m.volAddr ≠ h.next + 2; omega)
  · refine ⟨?_, ?_, ?_⟩
    · unfold Ref.GetSnapshot Ref.readSpot
      exact congrArg (Option.getD · [])
        (alLookup_alInsert_ne h.spotMaps h.next m.spotAddr _ (Nat.ne_of_lt hm1))
    · unfold Ref.GetSnapshot Ref.readCurve
      exact congrArg (Option.getD · [])
        (alLookup_alInsert_ne h.curveMaps (h.next + 1) m.curveAddr _ (by omega))
    · unfold Ref.GetSnapshot Ref.readVol
      exact congrArg (Option.getD · [])
        (alLookup_alInsert_ne h.volMaps (h.next + 2) m.volAddr _ (by omega))

/-- Witness for the amended C3 at a concrete heap, manager and operation
sequence. -/
theorem snapshot_independent_witness :
    ((0 : ℕ) < 3 ∧ (1 : ℕ) < 3 ∧ (2 : ℕ) < 3 ∧
      (∀ op ∈ [Ref.MOp.updSpot "USD/JPY" 150 2],
        Ref.noAlias (Ref.GetSnapshot ⟨[], [], [], 3⟩ ⟨0, 1, 2⟩ 5).2 op = true)) ∧
    Ref.snapSpots
      (Ref.runOps ((Ref.GetSnapshot ⟨[], [], [], 3⟩ ⟨0, 1, 2⟩ 5).1, ⟨0, 1, 2⟩)
        [Ref.MOp.updSpot "USD/JPY" 150 2]).1
      (Ref.GetSnapshot ⟨[], [], [], 3⟩ ⟨0, 1, 2⟩ 5).2 =
    Ref.snapSpots (Ref.GetSnapshot ⟨[], [], [], 3⟩ ⟨0, 1, 2⟩ 5).1
      (Ref.GetSnapshot ⟨[], [], [], 3⟩ ⟨0, 1, 2⟩ 5).2 :=
  ⟨⟨by decide, by decide, by decide, by decide⟩,
    ((snapshot_independent_amended ⟨[], [], [], 3⟩ ⟨0, 1, 2⟩ 5
        [Ref.MOp.updSpot "USD/JPY" 150 2]
        (by decide) (by decide) (by decide) (by decide)).1).1⟩

/-- Witness for the amended C2 at a concrete operation sequence. -/
theorem spot_positivity_witness :
    (∀ op ∈ [Market.MOp.updSpot "EUR/USD" 2 0],
      Market.loadsPositiveSpots op = true) ∧
    (0 : ℚ) < (⟨"EUR/USD", 2, 0⟩ : Market.SpotRate).Rate :=
  ⟨by decide,
    spot_positivity_amended [Market.MOp.updSpot "EUR/USD" 2 0] (by decide)
      "EUR/USD" ⟨"EUR/USD", 2, 0⟩ rfl⟩

/-! ## Contract variants and pricing -/

/-- Counterexample to C1 as stated: the models package defines no type whose
variant tag is When — the eighth variant of the claim is not representable in
the in-memory Contract data model. -/
theorem contract_variants_cex :
    ¬ (∀ n ∈ ["Zero", "Spot", "Forward", "EurOption", "ZCB", "Scale",
          "Combine", "When"],
        ∃ c : Models.Contract, Models.variantName c = n) := by
  intro h
  obtain ⟨c, hc⟩ := h "When" (by simp)
  cases c <;> simp [Models.variantName] at hc

/-- Claim C1 (amended): the in-memory Contract data model contains exactly
the seven variants Zero, Spot, Forward, EurOption, ZCB, Scale and Combine —
each is representable — and no contract value carries the When tag (neither a
When variant nor an Observable type exists in the models package). -/
theorem contract_variants_amended :
    (∀ n ∈ ["Zero", "Spot", "Forward", "EurOption", "ZCB", "Scale", "Combine"],
      ∃ c : Models.Contract, Models.variantName c = n) ∧
    (∀ c : Models.Contract, Models.variantName c ≠ "When") := by
  constructor
  · intro n hn
    simp only [List.mem_cons, List.not_mem_nil, or_false] at hn
    rcases hn with rfl | rfl | rfl | rfl | rfl | rfl | rfl
    · exact ⟨.Zero, rfl⟩
    · exact ⟨.Spot .USD .EUR, rfl⟩
    · exact ⟨.Forward 0 0 .USD .EUR, rfl⟩
    · exact ⟨.EurOption .Call 0 0 .USD .EUR, rfl⟩
    · exact ⟨.ZCB .USD 0, rfl⟩
    · exact ⟨.Scale 0 .Zero, rfl⟩
    · exact ⟨.Combine .Zero .Zero, rfl⟩
  · intro c
    cases c <;> simp [Models.variantName]

/-- Witness for the amended C1 at a concrete variant name. -/
theorem contract_variants_witness :
    ("Zero" ∈ ["Zero", "Spot", "Forward", "EurOption", "ZCB", "Scale", "Combine"]) ∧
    ∃ c : Models.Contract, Models.variantName c = "Zero" :=
  ⟨by simp, contract_variants_amended.1 "Zero" (by simp)⟩

/-- Claim C7: valuation is linear — whenever the component prices are
defined, a Combine prices to the sum of its parts and a Scale to the notional
times the child's price (exactly, in the idealised real arithmetic that
stands for floating point here). -/
theorem pricing_linear : ∀ (mkt : Pricing.MarketModel) (prm : Pricing.PricingParams)
    (ref : Models.Currency) (a b c : Models.Contract) (n pa pb p : ℝ),
    (Pricing.price a mkt prm ref = .ok pa → Pricing.price b mkt prm ref = .ok pb →
      Pricing.price (.Combine a b) mkt prm ref = .ok (pa + pb)) ∧
    (Pricing.price c mkt prm ref = .ok p →
      Pricing.price (.Scale n c) mkt prm ref = .ok (n * p)) := by
  intro mkt prm ref a b c n pa pb p
  cases hmodel : prm.model with
  | BlackScholes =>
    constructor
    · intro ha hb
      simp only [Pricing.price, hmodel] at ha hb ⊢
      simp only [Pricing.priceBS, ha, hb]
    · intro hc
      simp only [Pricing.price, hmodel] at hc ⊢
      simp only [Pricing.priceBS, hc]
  | LocalVol =>
    constructor
    · intro ha
      simp [Pricing.price, hmodel] at ha
    · intro hc
      simp [Pricing.price, hmodel] at hc
  | Heston =>
    constructor
    · intro ha
      simp [Pricing.price, hmodel] at ha
    · intro hc
      simp [Pricing.price, hmodel] at hc

/-- Witness for C7 at concrete contracts, market model and parameters. -/
theorem pricing_linear_witness :
    Pricing.price (.Combine .Zero .Zero) ⟨[], [], [], []⟩ ⟨0, .USD, .BlackScholes⟩ .USD =
      .ok (0 + 0) ∧
    Pricing.price (.Scale 5 .Zero) ⟨[], [], [], []⟩ ⟨0, .USD, .BlackScholes⟩ .USD =
      .ok (5 * 0) := by
  have h0 : Pricing.price .Zero ⟨[], [], [], []⟩ ⟨0, .USD, .BlackScholes⟩ .USD =
      .ok 0 := rfl
  exact ⟨(pricing_linear ⟨[], [], [], []⟩ ⟨0, .USD, .BlackScholes⟩ .USD
      .Zero .Zero .Zero 5 0 0 0).1 h0 h0,
    (pricing_linear ⟨[], [], [], []⟩ ⟨0, .USD, .BlackScholes⟩ .USD
      .Zero .Zero .Zero 5 0 0 0).2 h0⟩
